import Mathlib

/-!
Verification of the MatrixRiskEngine risk core: a shallow embedding of
the risk-analytics adapter (`src/adapters/ore_adapter.py`), the domain
invariants (`src/core/domain/portfolio.py`, `risk_metrics.py`), the
orchestration services (`risk_calculation_service.py`,
`stress_testing_service.py`) and the Kupiec VaR backtest
(`scripts/var_backtest.py`).

Modelling conventions:
* Python floats are modelled by `ℚ` (exact arithmetic); transcendental
  numeric routines that have no rational closed form (`np.log`,
  `scipy.stats.norm.ppf`, the square root inside a sample standard
  deviation) are passed in as explicit function parameters.
* Python dicts are association lists `List (String × ℚ)`; insertion into
  a dict is `dictInsert` (update-in-place if the key is present,
  append otherwise), matching Python dict semantics.
* A pandas `DataFrame` of market data is an association list
  symbol ↦ price series, the price series being positionally aligned on
  a shared date index (the repository always builds its frames that way).
* Raised exceptions are modelled by `Except RiskError`.
-/

namespace MatrixRisk

/-- Errors raised by the risk core.  `valueError`, `keySetMismatch` and
`cvarAboveVar` all model Python `ValueError` (the latter two are the two
`ValueError`s of `RiskMetrics._validate_invariants`); `indexError` models
the `IndexError` of indexing an empty price series with `iloc[-1]`. -/
inductive RiskError where
  | valueError
  | insufficientData (required available : ℕ)
  | pricingError (symbol : String)
  | keySetMismatch
  | cvarAboveVar (label : String)
  | indexError
deriving DecidableEq, Repr

instance {ε α : Type} [DecidableEq ε] [DecidableEq α] : DecidableEq (Except ε α) := fun x y =>
  match x, y with
  | .ok a, .ok b =>
      if h : a = b then .isTrue (by rw [h]) else .isFalse (by simp [h])
  | .error a, .error b =>
      if h : a = b then .isTrue (by rw [h]) else .isFalse (by simp [h])
  | .ok _, .error _ => .isFalse (by simp)
  | .error _, .ok _ => .isFalse (by simp)

/-- Python dict assignment `d[k] = v`: overwrite in place when the key
exists, append at the end otherwise. -/
def dictInsert (d : List (String × ℚ)) (k : String) (v : ℚ) : List (String × ℚ) :=
  if d.any (fun p => p.1 = k) then
    d.map (fun p => if p.1 = k then (k, v) else p)
  else
    d ++ [(k, v)]

/-- Python `int()` applied to a rational: truncation toward zero. -/
def pyInt (q : ℚ) : ℤ :=
  q.num.tdiv q.den

/-- Confidence label `f"{int(level * 100)}%"` used by `calculate_var`
and `calculate_cvar`. -/
def confidenceLabel (level : ℚ) : String :=
  toString (pyInt (level * 100)) ++ "%"

/-- Pandas `Series.pct_change().dropna()`: `r i = p (i+1) / p i - 1`. -/
def pctChange (prices : List ℚ) : List ℚ :=
  (prices.zip prices.tail).map (fun pr => pr.2 / pr.1 - 1)

/-- Mean of a pandas series (`Series.mean()`). -/
def seriesMean (xs : List ℚ) : ℚ :=
  xs.sum / xs.length

/-- Linear-interpolation percentile on an already sorted list, as
`np.percentile(_, q)` computes it for `q ∈ [0, 100]`: with
`h = (n-1)·q/100`, the value is `s⌊h⌋ + (h-⌊h⌋)·(s⌊h⌋₊₁ - s⌊h⌋)`
(upper index clipped to `n-1`). -/
def interpPercentile (s : List ℚ) (q : ℚ) : ℚ :=
  if s.length = 0 then 0
  else
    let h : ℚ := ((s.length : ℚ) - 1) * (q / 100)
    let i : ℕ := (⌊h⌋).toNat
    let lo := s.getD i 0
    let hi := s.getD (min (i + 1) (s.length - 1)) 0
    lo + (h - (i : ℚ)) * (hi - lo)

/-- `np.percentile(xs, q)` (linear interpolation, the numpy default). -/
def percentile (xs : List ℚ) (q : ℚ) : ℚ :=
  interpPercentile (xs.insertionSort (· ≤ ·)) q

/-- `OREAdapter._calculate_portfolio_returns`: per weighted symbol found
in the market-data columns with at least two prices, take the percentage
change series; align the series, keep the last `window_days` rows and
form the weighted row sums.  (Shorter series contribute nothing to rows
they do not reach, matching pandas' NaN-skipping sum.) -/
def calculate_portfolio_returns (weights : List (String × ℚ))
    (cols : List (String × List ℚ)) (window_days : ℕ) : List ℚ :=
  let series : List (ℚ × List ℚ) := weights.filterMap (fun wp =>
    match cols.lookup wp.1 with
    | some ps => if 1 < ps.length then some (wp.2, pctChange ps) else none
    | none => none)
  if series.isEmpty then []
  else
    let numRows := (series.map (fun s => s.2.length)).foldl max 0
    ((List.range numRows).drop (numRows - window_days)).map
      (fun i => (series.map (fun s => s.1 * s.2.getD i 0)).sum)

/-- Historical VaR of one confidence level, before NAV scaling:
`np.percentile(portfolio_returns, (1 - level) * 100)`. -/
def historicalVarLevel (returns : List ℚ) (level : ℚ) : ℚ :=
  percentile returns ((1 - level) * 100)

/-- Sample standard deviation `Series.std()` (ddof = 1); `sqrt` is the
square-root routine, passed in because it has no rational closed form. -/
def sampleStd (sqrt : ℚ → ℚ) (xs : List ℚ) : ℚ :=
  sqrt (((xs.map (fun x => (x - seriesMean xs) ^ 2)).sum) / ((xs.length : ℚ) - 1))

/-- Parametric VaR of one confidence level, before NAV scaling:
`mean + norm.ppf(1 - level) * std`. -/
def parametricVarLevel (sqrt ppf : ℚ → ℚ) (returns : List ℚ) (level : ℚ) : ℚ :=
  seriesMean returns + ppf (1 - level) * sampleStd sqrt returns

/-- CVaR of one confidence level, before NAV scaling: mean of the
returns at or below the VaR percentile threshold, falling back to the
threshold itself when that tail is empty. -/
def cvarLevel (returns : List ℚ) (level : ℚ) : ℚ :=
  let var_threshold := percentile returns ((1 - level) * 100)
  let tail_returns := returns.filter (fun x => x ≤ var_threshold)
  if 0 < tail_returns.length then seriesMean tail_returns else var_threshold

/-- `OREAdapter.calculate_var`.  Validates every confidence level to be
strictly inside (0, 1), derives the portfolio returns, raises
`InsufficientDataError` when fewer than `window_days` observations
remain, then fills a result dict label ↦ value for the requested
method (`"historical"` or `"parametric"`; anything else is a
`ValueError`). -/
def calculate_var (sqrt ppf : ℚ → ℚ) (weights : List (String × ℚ)) (nav : ℚ)
    (cols : List (String × List ℚ)) (method : String) (confidence_levels : List ℚ)
    (window_days : ℕ) : Except RiskError (List (String × ℚ)) :=
  if ¬ (∀ level ∈ confidence_levels, 0 < level ∧ level < 1) then
    .error .valueError
  else
    if (calculate_portfolio_returns weights cols window_days).length < window_days then
      .error (.insufficientData window_days
        (calculate_portfolio_returns weights cols window_days).length)
    else if method = "historical" then
      .ok (confidence_levels.foldl
        (fun d level => dictInsert d (confidenceLabel level)
          (historicalVarLevel (calculate_portfolio_returns weights cols window_days) level
            * nav)) [])
    else if method = "parametric" then
      .ok (confidence_levels.foldl
        (fun d level => dictInsert d (confidenceLabel level)
          (parametricVarLevel sqrt ppf (calculate_portfolio_returns weights cols window_days)
            level * nav)) [])
    else
      .error .valueError

/-- `OREAdapter.calculate_cvar`.  Derives the same portfolio returns,
raises `InsufficientDataError` on short data, then fills the result dict
with tail means.  (The `method` parameter is accepted but, as in the
source, never used by the computation; confidence levels are not
re-validated here.) -/
def calculate_cvar (weights : List (String × ℚ)) (nav : ℚ)
    (cols : List (String × List ℚ)) (method : String) (confidence_levels : List ℚ)
    (window_days : ℕ) : Except RiskError (List (String × ℚ)) :=
  if (calculate_portfolio_returns weights cols window_days).length < window_days then
    .error (.insufficientData window_days
      (calculate_portfolio_returns weights cols window_days).length)
  else
    .ok (confidence_levels.foldl
      (fun d level => dictInsert d (confidenceLabel level)
        (cvarLevel (calculate_portfolio_returns weights cols window_days) level * nav)) [])

/-- A stress scenario (`src/core/domain/stress_scenario.py`): a name and
a shock map risk-factor ↦ signed fractional shock.  (Description and
calibration date carry no behaviour and are omitted.) -/
structure StressScenario where
  name : String
  shocks : List (String × ℚ)
deriving DecidableEq, Repr

/-- One output row of `OREAdapter.stress_test`.  `stressedNpv`, `pnl` and
`pctChange` are `none` on the error rows (Python `None`); `err` holds the
stringified exception recorded in the row's `"error"` field. -/
structure StressRow where
  scenario : String
  base_npv : ℚ
  stressed_npv : Option ℚ
  pnl : Option ℚ
  pct_change : Option ℚ
  err : Option RiskError
deriving DecidableEq, Repr

/-- `OREAdapter.value_portfolio`: price each position from its market
data column (latest price) or, failing that, from the row index's
`"close"` entry (`idx` maps row label ↦ close price); a symbol found in
neither raises `PricingError`.  An empty column raises the `IndexError`
of `iloc[-1]`. -/
def value_portfolio (positions : List (String × ℚ)) (cols : List (String × List ℚ))
    (idx : List (String × ℚ)) : Except RiskError ℚ :=
  positions.foldlM
    (fun total sp =>
      match cols.lookup sp.1 with
      | some ps =>
          match ps.getLast? with
          | some price => .ok (total + sp.2 * price)
          | none => .error .indexError
      | none =>
          match idx.lookup sp.1 with
          | some price => .ok (total + sp.2 * price)
          | none => .error (.pricingError sp.1)) 0

/-- `OREAdapter._calculate_npv`: like `value_portfolio` but positions
whose symbol has no market-data column are silently skipped; an empty
column still raises `IndexError` from `iloc[-1]`. -/
def calculate_npv (positions : List (String × ℚ))
    (cols : List (String × List ℚ)) : Except RiskError ℚ :=
  positions.foldlM
    (fun npv sp =>
      match cols.lookup sp.1 with
      | some ps =>
          match ps.getLast? with
          | some price => .ok (npv + sp.2 * price)
          | none => .error .indexError
      | none => .ok npv) 0

/-- `OREAdapter._apply_shocks`: a shock keyed by an existing column
multiplies that column by `1 + shock`; the sentinel `"equity_all"`
multiplies every column; any other key (including `"rates"`) is a
no-op. -/
def apply_shocks (cols : List (String × List ℚ)) (shocks : List (String × ℚ)) :
    List (String × List ℚ) :=
  shocks.foldl
    (fun cs fs =>
      if cs.any (fun c => c.1 = fs.1) then
        cs.map (fun c => if c.1 = fs.1 then (c.1, c.2.map (fun p => p * (1 + fs.2))) else c)
      else if fs.1 = "equity_all" then
        cs.map (fun c => (c.1, c.2.map (fun p => p * (1 + fs.2))))
      else cs) cols

/-- `OREAdapter.stress_test`: computes the base NPV once (outside any
exception handler, so a failure there aborts the whole call), then one
row per scenario; a failing stressed revaluation is caught and recorded
as an error row instead of aborting the batch. -/
def stress_test (positions : List (String × ℚ)) (cols : List (String × List ℚ))
    (scenarios : List StressScenario) : Except RiskError (List StressRow) := do
  let base_npv ← calculate_npv positions cols
  return scenarios.map (fun scenario =>
    match calculate_npv positions (apply_shocks cols scenario.shocks) with
    | .ok stressed_npv =>
        let pnl := stressed_npv - base_npv
        { scenario := scenario.name, base_npv := base_npv,
          stressed_npv := some stressed_npv, pnl := some pnl,
          pct_change := some (if base_npv ≠ 0 then pnl / base_npv else 0),
          err := none }
    | .error e =>
        { scenario := scenario.name, base_npv := base_npv,
          stressed_npv := none, pnl := none, pct_change := none,
          err := some e })

/-- Weight-sum tolerance of `Portfolio._validate_invariants` (1e-6). -/
def WEIGHT_SUM_TOLERANCE : ℚ := 1 / 1000000

/-- A validated portfolio snapshot (`src/core/domain/portfolio.py`);
dates and metadata carry no behaviour for the risk core and are
omitted. -/
structure Portfolio where
  positions : List (String × ℚ)
  weights : List (String × ℚ)
  nav : ℚ
deriving DecidableEq, Repr

/-- `Portfolio.__post_init__` / `_validate_invariants`: identical symbol
sets for positions and weights, weight sum within `1e-6` of `1` (or of
`0` for a cash-only portfolio), non-negative NAV; a violation raises
`ValueError` instead of producing the instance. -/
def mkPortfolio (positions weights : List (String × ℚ)) (nav : ℚ) :
    Except RiskError Portfolio :=
  if positions.all (fun p => weights.any (fun w => w.1 = p.1)) ∧
      weights.all (fun w => positions.any (fun p => p.1 = w.1)) then
    if |(weights.map (fun w => w.2)).sum - 1| < WEIGHT_SUM_TOLERANCE ∨
        |(weights.map (fun w => w.2)).sum| < WEIGHT_SUM_TOLERANCE then
      if nav < 0 then
        .error .valueError
      else
        .ok { positions := positions, weights := weights, nav := nav }
    else
      .error .valueError
  else
    .error .valueError

/-- Tolerance of `RiskMetrics._validate_invariants`, scaled to the
magnitudes involved: `1e-6 * max(|var|, |cvar|, 1)`. -/
def riskMetricsTolerance (var_val cvar_val : ℚ) : ℚ :=
  (1 / 1000000) * max (max |var_val| |cvar_val|) 1

/-- A validated risk-metrics artifact (`src/core/domain/risk_metrics.py`);
Greeks, dates and metadata carry no invariant and are omitted. -/
structure RiskMetrics where
  var : List (String × ℚ)
  cvar : List (String × ℚ)
deriving DecidableEq, Repr

/-- `RiskMetrics.__post_init__` / `_validate_invariants`: the VaR and
CVaR dicts must share the same confidence-label key set, and at every
label CVaR must not exceed VaR by more than the scaled tolerance; a
violation raises `ValueError` (`keySetMismatch` / `cvarAboveVar`)
instead of producing the instance. -/
def mkRiskMetrics (var cvar : List (String × ℚ)) : Except RiskError RiskMetrics :=
  if var.all (fun p => cvar.any (fun q => q.1 = p.1)) ∧
      cvar.all (fun q => var.any (fun p => p.1 = q.1)) then
    match var.find? (fun p =>
      match cvar.lookup p.1 with
      | some cvar_val => decide (p.2 + riskMetricsTolerance p.2 cvar_val < cvar_val)
      | none => false) with
    | some p => .error (.cvarAboveVar p.1)
    | none => .ok { var := var, cvar := cvar }
  else
    .error .keySetMismatch

/-- `RiskCalculationService.calculate`, steps 2, 3 and the RiskMetrics
assembly: run `calculate_var` per requested method (merging the results
under method-prefixed keys when more than one method is requested),
compute `calculate_cvar` with the first method's parameters, then build
the `RiskMetrics` instance, whose construction validates the invariants.
Defaults (`methods or ["historical"]`, `confidence_levels or
[0.95, 0.99]`) are applied as in the source.  Greeks are best-effort
and carry no invariant, so they are omitted here. -/
def serviceCalculate (sqrt ppf : ℚ → ℚ) (portfolio : Portfolio)
    (cols : List (String × List ℚ)) (methods : List String)
    (confidence_levels : List ℚ) (window_days : ℕ) : Except RiskError RiskMetrics := do
  let ms := if methods.isEmpty then ["historical"] else methods
  let levels := if confidence_levels.isEmpty then [95/100, 99/100] else confidence_levels
  let var_results ← ms.foldlM
    (fun acc method => do
      let method_var ← calculate_var sqrt ppf portfolio.weights portfolio.nav cols
        method levels window_days
      if 1 < ms.length then
        return method_var.foldl (fun d kv => dictInsert d (method ++ "_" ++ kv.1) kv.2) acc
      else
        return method_var) []
  let cvar_results ← calculate_cvar portfolio.weights portfolio.nav cols
    (ms.headD "historical") levels window_days
  mkRiskMetrics var_results cvar_results

/-- The synthetic −10% equity-factor scenario built by
`StressTestingService._validate_linearity`. -/
def scenario_10 : StressScenario :=
  { name := "Linearity_10pct", shocks := [("SPX", -(1/10))] }

/-- The synthetic −20% equity-factor scenario built by
`StressTestingService._validate_linearity`. -/
def scenario_20 : StressScenario :=
  { name := "Linearity_20pct", shocks := [("SPX", -(1/5))] }

/-- `StressTestingService._validate_linearity`, parametric in the risk
port's `stress_test` (the service only sees the `RiskPort` protocol).
Returns the validity verdict together with the warnings it appends; any
exception inside the check — including the `TypeError` of `abs(None)` on
an error row — is caught and downgraded to "assume valid" with a
warning.  The acceptance test is `abs(ratio - 2.0) <= tolerance * 2.0`
with `tolerance = 0.05`. -/
def validate_linearity
    (stressFn : List StressScenario → Except RiskError (List StressRow)) :
    Bool × List String :=
  match stressFn [scenario_10, scenario_20] with
  | .error _ => (true, ["Linearity validation failed"])
  | .ok rows =>
      match rows.find? (fun r => r.scenario = "Linearity_10pct"),
            rows.find? (fun r => r.scenario = "Linearity_20pct") with
      | some row_10, some row_20 =>
          match row_10.pnl, row_20.pnl with
          | some p10, some p20 =>
              let pnl_10 := |p10|
              let pnl_20 := |p20|
              if pnl_10 < 1/1000000 then (true, [])
              else
                let ratio := pnl_20 / pnl_10
                let tolerance : ℚ := 5/100
                if |ratio - 2| ≤ tolerance * 2 then (true, [])
                else (false, ["Linearity check: 20%/10% P&L ratio out of tolerance"])
          | _, _ => (true, ["Linearity validation failed"])
      | _, _ => (true, [])

/-- Critical value of χ²(1) at 95%, as hard-coded in
`scripts/var_backtest.py`. -/
def critical_value_95 : ℚ := 384/100

/-- Critical value of χ²(1) at 99%, as hard-coded in
`scripts/var_backtest.py`. -/
def critical_value_99 : ℚ := 663/100

/-- Kupiec proportion-of-failures statistic of `backtest_var_model`:
`-2 * (x*log(p/(x/n)) + (n-x)*log((1-p)/(1-x/n)))` when `0 < x < n`,
`np.nan` (modelled as `none`) otherwise.  `log` is `np.log`, passed in
because it has no rational closed form. -/
def lr_pof (log : ℚ → ℚ) (x n : ℕ) (p : ℚ) : Option ℚ :=
  if 0 < x ∧ x < n then
    some (-2 * ((x : ℚ) * log (p / ((x : ℚ) / (n : ℚ))) +
      ((n : ℚ) - (x : ℚ)) * log ((1 - p) / (1 - (x : ℚ) / (n : ℚ)))))
  else
    none

/-- Modelled from the spec: the Kupiec likelihood-ratio formula
`LR = −2·[ x·ln(p/(x/n)) + (n−x)·ln((1−p)/(1−x/n)) ]` exactly as
written in the specification, for comparison with the code's
`lr_pof`. -/
def specKupiecLR (log : ℚ → ℚ) (x n : ℕ) (p : ℚ) : ℚ :=
  -2 * ((x : ℚ) * log (p / ((x : ℚ) / (n : ℚ))) +
    ((n : ℚ) - (x : ℚ)) * log ((1 - p) / (1 - (x : ℚ) / (n : ℚ))))

/-- `reject_at_95` of the backtest report:
`lr_pof > 3.84 if not np.isnan(lr_pof) else None`. -/
def reject_at_95 (log : ℚ → ℚ) (x n : ℕ) (p : ℚ) : Option Bool :=
  (lr_pof log x n p).map (fun lr => decide (critical_value_95 < lr))

/-- `model_valid_95` of the backtest report:
`lr_pof <= 3.84 if not np.isnan(lr_pof) else None`. -/
def model_valid_95 (log : ℚ → ℚ) (x n : ℕ) (p : ℚ) : Option Bool :=
  (lr_pof log x n p).map (fun lr => decide (lr ≤ critical_value_95))

/-! ### Helper lemmas about association lists -/

theorem lookup_mem {β : Type} {l : List (String × β)} {k : String} {v : β}
    (h : l.lookup k = some v) : (k, v) ∈ l := by
  induction l with
  | nil => simp [List.lookup] at h
  | cons a t ih =>
    rw [List.lookup] at h
    by_cases hk : k = a.1
    · subst hk
      simp at h
      subst h
      exact List.mem_cons_self _ _
    · have : (k == a.1) = false := beq_false_of_ne hk
      rw [this] at h
      exact List.mem_cons_of_mem _ (ih h)

theorem lookup_eq_some_of_mem {β : Type} {l : List (String × β)}
    (hnd : (l.map Prod.fst).Nodup) {k : String} {v : β}
    (hm : (k, v) ∈ l) : l.lookup k = some v := by
  induction l with
  | nil => simp at hm
  | cons a t ih =>
    rw [List.map_cons, List.nodup_cons] at hnd
    rcases List.mem_cons.mp hm with h | h
    · subst h
      simp [List.lookup]
    · have hne : k ≠ a.1 := by
        intro hk
        exact hnd.1 (hk ▸ List.mem_map_of_mem Prod.fst h)
      rw [List.lookup, beq_false_of_ne hne]
      exact ih hnd.2 h

theorem mem_keys_of_lookup_eq_some {β : Type} {l : List (String × β)} {k : String} {v : β}
    (h : l.lookup k = some v) : k ∈ l.map Prod.fst :=
  List.mem_map_of_mem Prod.fst (lookup_mem h)

theorem lookup_isSome_of_mem_keys {β : Type} {l : List (String × β)} {k : String}
    (h : k ∈ l.map Prod.fst) : ∃ v, l.lookup k = some v := by
  induction l with
  | nil => simp at h
  | cons a t ih =>
    by_cases hk : k = a.1
    · exact ⟨a.2, by rw [List.lookup, hk]; simp⟩
    · rw [List.map_cons, List.mem_cons] at h
      rcases h with h | h
      · exact absurd h hk
      · obtain ⟨v, hv⟩ := ih h
        exact ⟨v, by rw [List.lookup, beq_false_of_ne hk]; exact hv⟩

theorem all_any_keys_iff (l1 l2 : List (String × ℚ)) :
    (l1.all (fun p => l2.any (fun q => q.1 = p.1)) = true) ↔
      ∀ k ∈ l1.map Prod.fst, k ∈ l2.map Prod.fst := by
  simp only [List.all_eq_true, List.any_eq_true, decide_eq_true_eq, List.mem_map]
  constructor
  · rintro h k ⟨p, hp, rfl⟩
    obtain ⟨q, hq, hqe⟩ := h p hp
    exact ⟨q, hq, hqe⟩
  · intro h p hp
    obtain ⟨q, hq, hqe⟩ := h p.1 ⟨p, hp, rfl⟩
    exact ⟨q, hq, hqe⟩

/-! ### Claim C4: Portfolio construction invariants -/

/-- C4: a Portfolio construction succeeds exactly when the positions and
weights reference the same symbol set, the weight sum is within `1e-6`
of `1.0` (or of `0.0` for a cash-only portfolio), and the NAV is
non-negative; otherwise the constructor raises `ValueError` and no
instance is produced. -/
theorem portfolio_construction_invariants (positions weights : List (String × ℚ)) (nav : ℚ) :
    (∃ pf, mkPortfolio positions weights nav = .ok pf) ↔
      ((∀ k, k ∈ positions.map Prod.fst ↔ k ∈ weights.map Prod.fst) ∧
       (|(weights.map (fun w => w.2)).sum - 1| < WEIGHT_SUM_TOLERANCE ∨
        |(weights.map (fun w => w.2)).sum| < WEIGHT_SUM_TOLERANCE) ∧
       0 ≤ nav) := by
  rw [mkPortfolio]
  split_ifs with h1 h2 h3
  · constructor
    · rintro ⟨pf, hpf⟩
      exact absurd hpf (by simp)
    · rintro ⟨-, -, hnav⟩
      exact absurd h3 (not_lt.mpr hnav)
  · rcases h1 with ⟨ha, hb⟩
    constructor
    · intro _
      refine ⟨fun k => ⟨fun hk => ?_, fun hk => ?_⟩, h2, not_lt.mp h3⟩
      · exact (all_any_keys_iff _ _).mp ha k hk
      · exact (all_any_keys_iff _ _).mp hb k hk
    · intro _
      exact ⟨_, rfl⟩
  · constructor
    · rintro ⟨pf, hpf⟩
      exact absurd hpf (by simp)
    · rintro ⟨-, hsum, -⟩
      exact absurd hsum h2
  · constructor
    · rintro ⟨pf, hpf⟩
      exact absurd hpf (by simp)
    · rintro ⟨hkeys, -, -⟩
      refine (h1 ⟨(all_any_keys_iff _ _).mpr ?_, (all_any_keys_iff _ _).mpr ?_⟩).elim
      · exact fun k hk => (hkeys k).mp hk
      · exact fun k hk => (hkeys k).mpr hk

/-! ### Claim C3: RiskMetrics construction invariants -/

/-- C3: a RiskMetrics construction succeeds exactly when the VaR and
CVaR dicts share the same confidence-label key set and, at every label,
CVaR exceeds VaR by at most the magnitude-scaled tolerance
`1e-6 * max(|var|, |cvar|, 1)`; otherwise the constructor raises
`ValueError` and no instance is produced.  (The key-nodup hypothesis
records that the VaR input is a Python dict.) -/
theorem risk_metrics_construction_invariants (var cvar : List (String × ℚ))
    (hv : (var.map Prod.fst).Nodup) :
    (∃ m, mkRiskMetrics var cvar = .ok m) ↔
      ((∀ k, k ∈ var.map Prod.fst ↔ k ∈ cvar.map Prod.fst) ∧
       ∀ k v c, var.lookup k = some v → cvar.lookup k = some c →
         c ≤ v + riskMetricsTolerance v c) := by
  rw [mkRiskMetrics]
  split_ifs with h1
  case neg =>
    constructor
    · rintro ⟨m, hm⟩
      exact absurd hm (by simp)
    · rintro ⟨hkeys, -⟩
      refine (h1 ⟨(all_any_keys_iff _ _).mpr ?_, (all_any_keys_iff _ _).mpr ?_⟩).elim
      · exact fun k hk => (hkeys k).mp hk
      · exact fun k hk => (hkeys k).mpr hk
  case pos =>
    rcases h1 with ⟨ha, hb⟩
    rcases hfind : var.find? (fun p =>
        match cvar.lookup p.1 with
        | some cvar_val => decide (p.2 + riskMetricsTolerance p.2 cvar_val < cvar_val)
        | none => false) with _ | p
    all_goals rw [hfind]
    · constructor
      · intro _
        refine ⟨fun k => ⟨fun hk => (all_any_keys_iff _ _).mp ha k hk,
          fun hk => (all_any_keys_iff _ _).mp hb k hk⟩, ?_⟩
        intro k v c hkv hkc
        have hmem : (k, v) ∈ var := lookup_mem hkv
        have := List.find?_eq_none.mp hfind (k, v) hmem
        rw [hkc] at this
        simp only [decide_eq_true_eq] at this
        exact not_lt.mp this
      · intro _
        exact ⟨_, rfl⟩
    · constructor
      · rintro ⟨m, hm⟩
        exact absurd hm (by simp)
      · rintro ⟨-, hle⟩
        have hp := List.find?_some hfind
        have hpm := List.mem_of_find?_eq_some hfind
        rcases hcl : cvar.lookup p.1 with _ | c
        · rw [hcl] at hp
          simp at hp
        · rw [hcl] at hp
          simp only [decide_eq_true_eq] at hp
          have hvl : var.lookup p.1 = some p.2 := lookup_eq_some_of_mem hv hpm
          exact absurd (hle p.1 p.2 c hvl hcl) (not_le.mpr hp)

/-- Witness for C3 at a concrete one-label instance: VaR −2, CVaR −3
(a more extreme loss) passes both invariants. -/
theorem risk_metrics_construction_invariants_witness :
    (([("95%", (-2 : ℚ))] : List (String × ℚ)).map Prod.fst).Nodup ∧
      ((∃ m, mkRiskMetrics [("95%", (-2 : ℚ))] [("95%", (-3 : ℚ))] = .ok m) ↔
        ((∀ k, k ∈ ([("95%", (-2 : ℚ))] : List (String × ℚ)).map Prod.fst ↔
            k ∈ ([("95%", (-3 : ℚ))] : List (String × ℚ)).map Prod.fst) ∧
         ∀ k v c, ([("95%", (-2 : ℚ))] : List (String × ℚ)).lookup k = some v →
           ([("95%", (-3 : ℚ))] : List (String × ℚ)).lookup k = some c →
           c ≤ v + riskMetricsTolerance v c)) :=
  ⟨by simp, risk_metrics_construction_invariants _ _ (by simp)⟩

/-! ### Confidence-label evaluation lemmas -/

theorem pyInt_half_pct : pyInt ((1/2 : ℚ) * 100) = 50 := by
  have h : ((1:ℚ)/2 * 100) = 50 := by norm_num
  rw [pyInt, h]
  decide

theorem label_half : confidenceLabel (1/2) = "50%" := by
  rw [confidenceLabel, pyInt_half_pct]
  decide

theorem pyInt_34_pct : pyInt ((3/4 : ℚ) * 100) = 75 := by
  have h : ((3:ℚ)/4 * 100) = 75 := by norm_num
  rw [pyInt, h]
  decide

theorem label_34 : confidenceLabel (3/4) = "75%" := by
  rw [confidenceLabel, pyInt_34_pct]
  decide

theorem pyInt_975_pct : pyInt ((39/40 : ℚ) * 100) = 97 := by
  rw [pyInt]
  norm_num
  decide

theorem label_975 : confidenceLabel (39/40) = "97%" := by
  rw [confidenceLabel, pyInt_975_pct]
  decide

theorem pyInt_95_pct : pyInt ((19/20 : ℚ) * 100) = 95 := by
  have h : ((19:ℚ)/20 * 100) = 95 := by norm_num
  rw [pyInt, h]
  decide

theorem label_95 : confidenceLabel (19/20) = "95%" := by
  rw [confidenceLabel, pyInt_95_pct]
  decide

theorem pyInt_955_pct : pyInt ((191/200 : ℚ) * 100) = 95 := by
  rw [pyInt]
  norm_num
  decide

theorem label_955 : confidenceLabel (191/200) = "95%" := by
  rw [confidenceLabel, pyInt_955_pct]
  decide

/-! ### Claim C10: label truncation and merging collisions -/

/-- C10: confidence labels are `f"{int(level*100)}%"` with `int`
truncating toward zero, so 0.975 is labelled `"97%"`; the two distinct
levels 0.95 and 0.955 share the label `"95%"`, and requesting both makes
the later level overwrite the earlier one, so `calculate_var` returns a
single merged entry (carrying the 0.955 value 227/200) — one fewer than
the requested levels. -/
theorem confidence_label_truncation_and_merging :
    (∀ level : ℚ, confidenceLabel level = toString (pyInt (level * 100)) ++ "%") ∧
    confidenceLabel (39/40) = "97%" ∧
    ((19 : ℚ)/20 ≠ 191/200 ∧ confidenceLabel (19/20) = confidenceLabel (191/200)) ∧
    calculate_var (fun q => q) (fun q => q) [("A", 1)] 1 [("A", [1, 2, 6, 24, 120])]
      "historical" [19/20, 191/200] 4 = .ok [("95%", 227/200)] ∧
    calculate_cvar [("A", 1)] 1 [("A", [1, 2, 6, 24, 120])]
      "historical" [19/20, 191/200] 4 = .ok [("95%", 1)] ∧
    ([("95%", (227/200 : ℚ))] : List (String × ℚ)).length <
      ([19/20, 191/200] : List ℚ).length := by
  refine ⟨fun level => rfl, label_975, ⟨by norm_num, by rw [label_95, label_955]⟩, ?_, ?_, ?_⟩
  · norm_num [calculate_var, calculate_portfolio_returns, pctChange, List.lookup,
      List.range_succ, List.filterMap_cons, List.isEmpty, historicalVarLevel,
      percentile, interpPercentile, List.insertionSort, List.orderedInsert,
      dictInsert, label_95, label_955]
  · norm_num [calculate_cvar, calculate_portfolio_returns, pctChange, List.lookup,
      List.range_succ, List.filterMap_cons, List.isEmpty, cvarLevel, List.filter,
      percentile, interpPercentile, List.insertionSort, List.orderedInsert,
      seriesMean, dictInsert, label_95, label_955]
  · simp

/-! ### Claim C9: insufficient-data error -/

theorem pctChange_length (ps : List ℚ) : (pctChange ps).length = ps.length - 1 := by
  rw [pctChange, List.length_map, List.length_zip, List.length_tail]
  exact min_eq_right (Nat.sub_le _ _)

theorem foldl_max_const {v : ℕ} : ∀ (l : List ℕ) (a : ℕ), (∀ x ∈ l, x = v) → l ≠ [] →
    l.foldl max a = max a v
  | [], _, _, hne => absurd rfl hne
  | [x], a, hall, _ => by rw [List.foldl_cons, List.foldl_nil, hall x (by simp)]
  | x :: y :: t, a, hall, _ => by
      rw [List.foldl_cons, foldl_max_const (y :: t) (max a x) (fun z hz => hall z (by simp [hz])) (by simp),
        hall x (by simp), max_assoc, max_self]

/-- C9: `calculate_var` (with validated confidence levels) and
`calculate_cvar` return `InsufficientDataError` — carrying the required
window and the available observation count, with no partial result —
exactly when the derived portfolio return series is shorter than
`window_days`; in particular a price history of exactly `window_days`
rows for every column yields only `window_days - 1` return observations
and is rejected. -/
theorem insufficient_data_exactly (sqrt ppf : ℚ → ℚ) (weights : List (String × ℚ))
    (nav : ℚ) (cols : List (String × List ℚ)) (method : String)
    (confidence_levels : List ℚ) (window_days : ℕ)
    (hlv : ∀ level ∈ confidence_levels, 0 < level ∧ level < 1) :
    (calculate_var sqrt ppf weights nav cols method confidence_levels window_days =
        .error (.insufficientData window_days
          (calculate_portfolio_returns weights cols window_days).length) ↔
      (calculate_portfolio_returns weights cols window_days).length < window_days) ∧
    (calculate_cvar weights nav cols method confidence_levels window_days =
        .error (.insufficientData window_days
          (calculate_portfolio_returns weights cols window_days).length) ↔
      (calculate_portfolio_returns weights cols window_days).length < window_days) ∧
    (∀ s w, (s, w) ∈ weights → s ∈ cols.map Prod.fst →
      (∀ col ∈ cols, col.2.length = window_days) → 2 ≤ window_days →
      (calculate_portfolio_returns weights cols window_days).length = window_days - 1 ∧
      calculate_var sqrt ppf weights nav cols method confidence_levels window_days =
        .error (.insufficientData window_days (window_days - 1))) := by
  have hvar : calculate_var sqrt ppf weights nav cols method confidence_levels window_days =
      .error (.insufficientData window_days
        (calculate_portfolio_returns weights cols window_days).length) ↔
      (calculate_portfolio_returns weights cols window_days).length < window_days := by
    rw [calculate_var, if_neg (not_not_intro hlv)]
    split_ifs with h2 h3 h4 <;> simp [h2]
  have hcvar : calculate_cvar weights nav cols method confidence_levels window_days =
      .error (.insufficientData window_days
        (calculate_portfolio_returns weights cols window_days).length) ↔
      (calculate_portfolio_returns weights cols window_days).length < window_days := by
    rw [calculate_cvar]
    split_ifs with h2 <;> simp [h2]
  refine ⟨hvar, hcvar, ?_⟩
  intro s w hsw hscols hlen hw
  have hlenret : (calculate_portfolio_returns weights cols window_days).length =
      window_days - 1 := by
    rw [calculate_portfolio_returns]
    obtain ⟨ps, hps⟩ := lookup_isSome_of_mem_keys (l := cols) hscols
    have hpslen : ps.length = window_days := hlen _ (lookup_mem hps)
    have hmem : (w, pctChange ps) ∈ weights.filterMap (fun wp =>
        match cols.lookup wp.1 with
        | some ps => if 1 < ps.length then some (wp.2, pctChange ps) else none
        | none => none) := by
      rw [List.mem_filterMap]
      refine ⟨(s, w), hsw, ?_⟩
      have hgt : 1 < ps.length := by rw [hpslen]; omega
      rw [hps]
      simp only [if_pos hgt]
    have hne : weights.filterMap (fun wp =>
        match cols.lookup wp.1 with
        | some ps => if 1 < ps.length then some (wp.2, pctChange ps) else none
        | none => none) ≠ [] := List.ne_nil_of_mem hmem
    have hall : ∀ x ∈ (weights.filterMap (fun wp =>
        match cols.lookup wp.1 with
        | some ps => if 1 < ps.length then some (wp.2, pctChange ps) else none
        | none => none)).map (fun sr => sr.2.length), x = window_days - 1 := by
      intro x hx
      rw [List.mem_map] at hx
      obtain ⟨sr, hsr, rfl⟩ := hx
      rw [List.mem_filterMap] at hsr
      obtain ⟨wp, hwp, hfe⟩ := hsr
      rcases hcl : cols.lookup wp.1 with _ | qs
      · rw [hcl] at hfe
        simp at hfe
      · rw [hcl] at hfe
        have hfe' : (if 1 < qs.length then some (wp.2, pctChange qs) else none) = some sr :=
          hfe
        by_cases hq : 1 < qs.length
        · rw [if_pos hq] at hfe'
          have := Option.some.inj hfe'
          rw [← this, pctChange_length, hlen _ (lookup_mem hcl)]
        · rw [if_neg hq] at hfe'
          simp at hfe'
    simp only [List.isEmpty_eq_true, hne, if_neg hne]
    rw [foldl_max_const _ 0 hall (by simpa using hne), Nat.max_eq_right (Nat.zero_le _)]
    have hdrop : window_days - 1 - window_days = 0 := by omega
    rw [hdrop, List.drop_zero]
    simp
  rw [hlenret] at hvar
  exact ⟨hlenret, hvar.mpr (by omega)⟩

/-- Witness for C9: with a single-symbol portfolio whose price history
has exactly 4 = `window_days` rows, only 3 returns are available and
both calculators reject with `InsufficientDataError(4, 3)`. -/
theorem insufficient_data_exactly_witness :
    calculate_var (fun q => q) (fun q => q) [("A", 1)] 1 [("A", [1, 2, 6, 24])]
      "historical" [19/20] 4 = .error (.insufficientData 4 3) ∧
    calculate_cvar [("A", 1)] 1 [("A", [1, 2, 6, 24])]
      "historical" [19/20] 4 = .error (.insufficientData 4 3) := by
  have h := insufficient_data_exactly (fun q => q) (fun q => q) [("A", 1)] 1
    [("A", [1, 2, 6, 24])] "historical" [19/20] 4
    (by intro level hl; rw [List.mem_singleton] at hl; subst hl; norm_num)
  have hlen : (calculate_portfolio_returns [("A", 1)] [("A", [1, 2, 6, 24])] 4).length = 3 :=
    (h.2.2 "A" 1 (by simp) (by simp) (by simp) (by norm_num)).1
  refine ⟨?_, ?_⟩
  · have := (h.2.2 "A" 1 (by simp) (by simp) (by simp) (by norm_num)).2
    simpa using this
  · have := h.2.1.mpr (by rw [hlen]; norm_num)
    rw [hlen] at this
    exact this

/-! ### Claim C1: CVaR is bounded by historical VaR -/

theorem seriesMean_le_of_forall_le {l : List ℚ} {b : ℚ} (hne : 0 < l.length)
    (h : ∀ x ∈ l, x ≤ b) : seriesMean l ≤ b := by
  rw [seriesMean, div_le_iff (by exact_mod_cast hne)]
  calc l.sum ≤ l.length • b := List.sum_le_card_nsmul l b h
    _ = (l.length : ℚ) * b := by rw [nsmul_eq_mul]
    _ = b * l.length := by ring

/-- The per-level CVaR never exceeds the per-level historical VaR: the
tail mean averages values that are all at most the percentile threshold,
and the empty-tail fallback returns the threshold itself. -/
theorem cvarLevel_le_historicalVarLevel (rs : List ℚ) (level : ℚ) :
    cvarLevel rs level ≤ historicalVarLevel rs level := by
  simp only [cvarLevel, historicalVarLevel]
  split_ifs with h
  · refine seriesMean_le_of_forall_le h ?_
    intro x hx
    exact of_decide_eq_true (List.mem_filter.mp hx).2
  · exact le_refl _

theorem forall2_any_eq {d1 d2 : List (String × ℚ)}
    (h : List.Forall₂ (fun p q : String × ℚ => p.1 = q.1 ∧ q.2 ≤ p.2) d1 d2) (k : String) :
    (d1.any (fun p => p.1 = k)) = (d2.any (fun p => p.1 = k)) := by
  induction h with
  | nil => rfl
  | cons hpq _ ih => simp [List.any_cons, hpq.1, ih]

theorem forall2_dictInsert {d1 d2 : List (String × ℚ)}
    (h : List.Forall₂ (fun p q : String × ℚ => p.1 = q.1 ∧ q.2 ≤ p.2) d1 d2)
    {k : String} {v1 v2 : ℚ} (hv : v2 ≤ v1) :
    List.Forall₂ (fun p q : String × ℚ => p.1 = q.1 ∧ q.2 ≤ p.2)
      (dictInsert d1 k v1) (dictInsert d2 k v2) := by
  rw [dictInsert, dictInsert, forall2_any_eq h k]
  by_cases hk : d2.any (fun p => p.1 = k) = true
  · rw [if_pos hk, if_pos hk]
    clear hk
    induction h with
    | nil => exact .nil
    | @cons a b l1 l2 hpq _ ih =>
      simp only [List.map_cons]
      refine .cons ?_ ih
      by_cases hak : a.1 = k
      · have hbk : b.1 = k := hpq.1 ▸ hak
        rw [if_pos hak, if_pos hbk]
        exact ⟨rfl, hv⟩
      · have hbk : ¬ b.1 = k := hpq.1 ▸ hak
        rw [if_neg hak, if_neg hbk]
        exact hpq
  · rw [if_neg hk, if_neg hk]
    exact List.rel_append h (List.Forall₂.cons ⟨rfl, hv⟩ List.Forall₂.nil)

theorem forall2_dict_fold (label : ℚ → String) (f g : ℚ → ℚ) :
    ∀ (levels : List ℚ) {d1 d2 : List (String × ℚ)},
      (∀ c ∈ levels, g c ≤ f c) →
      List.Forall₂ (fun p q : String × ℚ => p.1 = q.1 ∧ q.2 ≤ p.2) d1 d2 →
      List.Forall₂ (fun p q : String × ℚ => p.1 = q.1 ∧ q.2 ≤ p.2)
        (levels.foldl (fun d c => dictInsert d (label c) (f c)) d1)
        (levels.foldl (fun d c => dictInsert d (label c) (g c)) d2)
  | [], _, _, _, h => h
  | c :: t, d1, d2, hcs, h => by
      rw [List.foldl_cons, List.foldl_cons]
      exact forall2_dict_fold label f g t
        (fun x hx => hcs x (List.mem_cons_of_mem c hx))
        (forall2_dictInsert h (hcs c (List.mem_cons_self c t)))

/-- C1: on any portfolio data with non-negative NAV and any market data
accepted by both calculators, `calculate_cvar` pairs with the
historical-method `calculate_var` result label by label with
CVaR ≤ VaR at every entry; and whenever the tail at or below the VaR
percentile threshold is empty, the per-level CVaR value is exactly the
VaR threshold itself scaled by NAV. -/
theorem cvar_le_historical_var (sqrt ppf : ℚ → ℚ) (weights : List (String × ℚ))
    (nav : ℚ) (cols : List (String × List ℚ)) (method : String)
    (confidence_levels : List ℚ) (window_days : ℕ)
    (hnav : 0 ≤ nav) (dv dc : List (String × ℚ))
    (hv : calculate_var sqrt ppf weights nav cols "historical" confidence_levels
      window_days = .ok dv)
    (hc : calculate_cvar weights nav cols method confidence_levels window_days = .ok dc) :
    List.Forall₂ (fun p q : String × ℚ => p.1 = q.1 ∧ q.2 ≤ p.2) dv dc ∧
    (∀ (rs : List ℚ) (level scaling : ℚ),
      (rs.filter (fun x => x ≤ percentile rs ((1 - level) * 100))).length = 0 →
      cvarLevel rs level * scaling = percentile rs ((1 - level) * 100) * scaling) := by
  constructor
  · rw [calculate_var] at hv
    by_cases h1 : ∀ level ∈ confidence_levels, 0 < level ∧ level < 1
    · rw [if_neg (not_not_intro h1)] at hv
      by_cases h2 : (calculate_portfolio_returns weights cols window_days).length < window_days
      · rw [if_pos h2] at hv
        exact absurd hv (by simp)
      · rw [if_neg h2, if_pos rfl] at hv
        rw [Except.ok.injEq] at hv
        rw [calculate_cvar, if_neg h2] at hc
        rw [Except.ok.injEq] at hc
        rw [← hv, ← hc]
        refine forall2_dict_fold confidenceLabel _ _ confidence_levels ?_ List.Forall₂.nil
        intro c _
        exact mul_le_mul_of_nonneg_right (cvarLevel_le_historicalVarLevel _ c) hnav
    · rw [if_pos h1] at hv
      exact absurd hv (by simp)
  · intro rs level scaling hempty
    simp only [cvarLevel]
    rw [if_neg (by rw [hempty]; exact lt_irrefl 0)]

/-- Witness for C1 at a concrete single-symbol portfolio with four
return observations: both calculators succeed and the paired entries
satisfy CVaR ≤ VaR. -/
theorem cvar_le_historical_var_witness :
    (0 : ℚ) ≤ 1 ∧
    calculate_var (fun q => q) (fun q => q) [("A", 1)] 1 [("A", [1, 2, 6, 24, 120])]
      "historical" [1/2, 3/4] 4 = .ok [("50%", 5/2), ("75%", 7/4)] ∧
    calculate_cvar [("A", 1)] 1 [("A", [1, 2, 6, 24, 120])]
      "historical" [1/2, 3/4] 4 = .ok [("50%", 3/2), ("75%", 1)] ∧
    (List.Forall₂ (fun p q : String × ℚ => p.1 = q.1 ∧ q.2 ≤ p.2)
      [("50%", 5/2), ("75%", 7/4)] [("50%", 3/2), ("75%", 1)] ∧
    (∀ (rs : List ℚ) (level scaling : ℚ),
      (rs.filter (fun x => x ≤ percentile rs ((1 - level) * 100))).length = 0 →
      cvarLevel rs level * scaling = percentile rs ((1 - level) * 100) * scaling)) := by
  have hvar : calculate_var (fun q : ℚ => q) (fun q : ℚ => q) [("A", 1)] 1
      [("A", [1, 2, 6, 24, 120])] "historical" [1/2, 3/4] 4 =
      .ok [("50%", 5/2), ("75%", 7/4)] := by
    norm_num [calculate_var, calculate_portfolio_returns, pctChange, List.lookup,
      List.range_succ, List.filterMap_cons, List.isEmpty, historicalVarLevel,
      percentile, interpPercentile, List.insertionSort, List.orderedInsert,
      dictInsert, label_half, label_34]
    decide
  have hcvar : calculate_cvar [("A", 1)] 1 [("A", [1, 2, 6, 24, 120])]
      "historical" [1/2, 3/4] 4 = .ok [("50%", 3/2), ("75%", 1)] := by
    norm_num [calculate_cvar, calculate_portfolio_returns, pctChange, List.lookup,
      List.range_succ, List.filterMap_cons, List.isEmpty, cvarLevel, List.filter,
      percentile, interpPercentile, List.insertionSort, List.orderedInsert,
      seriesMean, dictInsert, label_half, label_34]
    decide
  exact ⟨by norm_num, hvar, hcvar,
    cvar_le_historical_var (fun q => q) (fun q => q) [("A", 1)] 1
      [("A", [1, 2, 6, 24, 120])] "historical" [1/2, 3/4] 4 (by norm_num)
      [("50%", 5/2), ("75%", 7/4)] [("50%", 3/2), ("75%", 1)] hvar hcvar⟩

/-! ### Claim C8: VaR monotonicity in the confidence level -/

theorem sorted_getD_mono {s : List ℚ} (hs : s.Sorted (· ≤ ·)) {i j : ℕ}
    (hij : i ≤ j) (hj : j < s.length) : s.getD i 0 ≤ s.getD j 0 := by
  have hi : i < s.length := lt_of_le_of_lt hij hj
  rw [List.getD_eq_getElem _ _ hi, List.getD_eq_getElem _ _ hj]
  exact hs.rel_get_of_le (by exact_mod_cast hij)

theorem interp_formula_mono {s : List ℚ} (hs : s.Sorted (· ≤ ·)) {h1 h2 : ℚ}
    (h0 : 0 ≤ h1) (h12 : h1 ≤ h2) (hend : h2 ≤ (s.length : ℚ) - 1) (hn1 : 1 ≤ s.length) :
    s.getD (⌊h1⌋.toNat) 0 + (h1 - (⌊h1⌋.toNat : ℚ)) *
      (s.getD (min (⌊h1⌋.toNat + 1) (s.length - 1)) 0 - s.getD (⌊h1⌋.toNat) 0) ≤
    s.getD (⌊h2⌋.toNat) 0 + (h2 - (⌊h2⌋.toNat : ℚ)) *
      (s.getD (min (⌊h2⌋.toNat + 1) (s.length - 1)) 0 - s.getD (⌊h2⌋.toNat) 0) := by
  have h0' : 0 ≤ h2 := le_trans h0 h12
  have hf1 : (0 : ℤ) ≤ ⌊h1⌋ := Int.floor_nonneg.mpr h0
  have hf2 : (0 : ℤ) ≤ ⌊h2⌋ := Int.floor_nonneg.mpr h0'
  have hc1 : ((⌊h1⌋.toNat : ℚ)) = (⌊h1⌋ : ℚ) := by exact_mod_cast Int.toNat_of_nonneg hf1
  have hc2 : ((⌊h2⌋.toNat : ℚ)) = (⌊h2⌋ : ℚ) := by exact_mod_cast Int.toNat_of_nonneg hf2
  have hle1 : ((⌊h1⌋.toNat : ℚ)) ≤ h1 := by rw [hc1]; exact Int.floor_le h1
  have hle2 : ((⌊h2⌋.toNat : ℚ)) ≤ h2 := by rw [hc2]; exact Int.floor_le h2
  have hlt1 : h1 < (⌊h1⌋.toNat : ℚ) + 1 := by rw [hc1]; exact Int.lt_floor_add_one h1
  have hi2top : ⌊h2⌋.toNat ≤ s.length - 1 := by
    have hq : h2 ≤ ((s.length - 1 : ℕ) : ℚ) := by
      rw [Nat.cast_sub hn1]
      exact_mod_cast hend
    have := Int.floor_mono hq
    rw [Int.floor_natCast] at this
    omega
  have hi2lt : ⌊h2⌋.toNat < s.length := by omega
  have hi12 : ⌊h1⌋.toNat ≤ ⌊h2⌋.toNat := by
    have := Int.floor_mono h12
    omega
  have hi1lt : ⌊h1⌋.toNat < s.length := lt_of_le_of_lt hi12 hi2lt
  have hm1lt : min (⌊h1⌋.toNat + 1) (s.length - 1) < s.length := by omega
  have hm2lt : min (⌊h2⌋.toNat + 1) (s.length - 1) < s.length := by omega
  have hd1 : s.getD (⌊h1⌋.toNat) 0 ≤ s.getD (min (⌊h1⌋.toNat + 1) (s.length - 1)) 0 := by
    rcases le_or_lt (⌊h1⌋.toNat + 1) (s.length - 1) with hm | hm
    · rw [min_eq_left hm]
      exact sorted_getD_mono hs (Nat.le_succ _) (by omega)
    · rw [min_eq_right (by omega)]
      exact sorted_getD_mono hs (by omega) (by omega)
  have hd2 : s.getD (⌊h2⌋.toNat) 0 ≤ s.getD (min (⌊h2⌋.toNat + 1) (s.length - 1)) 0 := by
    rcases le_or_lt (⌊h2⌋.toNat + 1) (s.length - 1) with hm | hm
    · rw [min_eq_left hm]
      exact sorted_getD_mono hs (Nat.le_succ _) (by omega)
    · rw [min_eq_right (by omega)]
      exact sorted_getD_mono hs (by omega) (by omega)
  rcases eq_or_lt_of_le hi12 with heq | hlt
  · rw [← heq]
    have hdiff : 0 ≤ s.getD (min (⌊h1⌋.toNat + 1) (s.length - 1)) 0 - s.getD (⌊h1⌋.toNat) 0 :=
      sub_nonneg.mpr hd1
    have hstep : (h1 - (⌊h1⌋.toNat : ℚ)) *
        (s.getD (min (⌊h1⌋.toNat + 1) (s.length - 1)) 0 - s.getD (⌊h1⌋.toNat) 0) ≤
        (h2 - (⌊h1⌋.toNat : ℚ)) *
        (s.getD (min (⌊h1⌋.toNat + 1) (s.length - 1)) 0 - s.getD (⌊h1⌋.toNat) 0) :=
      mul_le_mul_of_nonneg_right (by linarith) hdiff
    linarith [hstep]
  · have hmid : s.getD (min (⌊h1⌋.toNat + 1) (s.length - 1)) 0 ≤ s.getD (⌊h2⌋.toNat) 0 := by
      refine sorted_getD_mono hs ?_ hi2lt
      exact le_trans (min_le_left _ _) hlt
    have hup : s.getD (⌊h1⌋.toNat) 0 + (h1 - (⌊h1⌋.toNat : ℚ)) *
        (s.getD (min (⌊h1⌋.toNat + 1) (s.length - 1)) 0 - s.getD (⌊h1⌋.toNat) 0) ≤
        s.getD (min (⌊h1⌋.toNat + 1) (s.length - 1)) 0 := by
      have hdiff : 0 ≤ s.getD (min (⌊h1⌋.toNat + 1) (s.length - 1)) 0 - s.getD (⌊h1⌋.toNat) 0 :=
        sub_nonneg.mpr hd1
      have hfr : h1 - (⌊h1⌋.toNat : ℚ) ≤ 1 := by linarith
      nlinarith
    have hlow : s.getD (⌊h2⌋.toNat) 0 ≤ s.getD (⌊h2⌋.toNat) 0 + (h2 - (⌊h2⌋.toNat : ℚ)) *
        (s.getD (min (⌊h2⌋.toNat + 1) (s.length - 1)) 0 - s.getD (⌊h2⌋.toNat) 0) := by
      have hdiff : 0 ≤ s.getD (min (⌊h2⌋.toNat + 1) (s.length - 1)) 0 - s.getD (⌊h2⌋.toNat) 0 :=
        sub_nonneg.mpr hd2
      nlinarith [sub_nonneg.mpr hle2]
    linarith

/-- `np.percentile` with linear interpolation is monotone in the
percentile rank over `[0, 100]`. -/
theorem percentile_mono (xs : List ℚ) {q1 q2 : ℚ}
    (h0 : 0 ≤ q1) (h12 : q1 ≤ q2) (h100 : q2 ≤ 100) :
    percentile xs q1 ≤ percentile xs q2 := by
  rw [percentile, percentile]
  have hs : (xs.insertionSort (· ≤ ·)).Sorted (· ≤ ·) := List.sorted_insertionSort _ xs
  rcases Nat.eq_zero_or_pos (xs.insertionSort (· ≤ ·)).length with hz | hp
  · rw [interpPercentile, interpPercentile, if_pos hz, if_pos hz]
  · have hzne : (xs.insertionSort (· ≤ ·)).length ≠ 0 := Nat.pos_iff_ne_zero.mp hp
    rw [interpPercentile, interpPercentile, if_neg hzne, if_neg hzne]
    have hnc : (1 : ℚ) ≤ ((xs.insertionSort (· ≤ ·)).length : ℚ) := by exact_mod_cast hp
    refine interp_formula_mono hs ?_ ?_ ?_ hp
    · exact mul_nonneg (by linarith) (by positivity)
    · have : (0 : ℚ) ≤ ((xs.insertionSort (· ≤ ·)).length : ℚ) - 1 := by linarith
      exact mul_le_mul_of_nonneg_left (by linarith) this
    · have hq : q2 / 100 ≤ 1 := by linarith
      calc (((xs.insertionSort (· ≤ ·)).length : ℚ) - 1) * (q2 / 100) ≤
          (((xs.insertionSort (· ≤ ·)).length : ℚ) - 1) * 1 :=
            mul_le_mul_of_nonneg_left hq (by linarith)
        _ = ((xs.insertionSort (· ≤ ·)).length : ℚ) - 1 := mul_one _

/-- C8 counterexample: on a steadily rising price history every return
is positive, so the historical VaR values are positive and the one at
the higher confidence level is *smaller* in absolute value: for the
accepted input below, VaR(50%) = 5/2 and VaR(75%) = 7/4, and
`|VaR(75%)| ≥ |VaR(50%)|` fails. -/
theorem abs_var_monotone_counterexample :
    calculate_var (fun q => q) (fun q => q) [("A", 1)] 1 [("A", [1, 2, 6, 24, 120])]
      "historical" [1/2, 3/4] 4 = .ok [("50%", 5/2), ("75%", 7/4)] ∧
    (0 : ℚ) < 1/2 ∧ (1/2 : ℚ) < 3/4 ∧ (3/4 : ℚ) < 1 ∧
    ¬ (|(5/2 : ℚ)| ≤ |(7/4 : ℚ)|) := by
  refine ⟨?_, by norm_num, by norm_num, by norm_num, ?_⟩
  case refine_2 =>
    rw [abs_of_nonneg (by norm_num : (0:ℚ) ≤ 5/2), abs_of_nonneg (by norm_num : (0:ℚ) ≤ 7/4)]
    norm_num
  norm_num [calculate_var, calculate_portfolio_returns, pctChange, List.lookup,
    List.range_succ, List.filterMap_cons, List.isEmpty, historicalVarLevel,
    percentile, interpPercentile, List.insertionSort, List.orderedInsert,
    dictInsert, label_half, label_34]
  decide

/-- C8 amended: for confidence levels `c1 ≤ c2` in `[0, 1]` the *signed*
per-level VaR values satisfy `VaR(c2) ≤ VaR(c1)` — for the historical
method unconditionally, and for the parametric method whenever the
normal inverse CDF is monotone and the sample standard deviation is
non-negative; consequently `|VaR(c2)| ≥ |VaR(c1)|` does hold whenever
the value at the lower confidence is a loss (non-positive).  The
original claim's unconditional `|VaR(c2)| ≥ |VaR(c1)|` fails when the
VaR values are positive (see the counterexample). -/
theorem var_monotone_in_confidence (sqrt ppf : ℚ → ℚ) (weights : List (String × ℚ))
    (cols : List (String × List ℚ)) (window_days : ℕ) (nav c1 c2 : ℚ)
    (h1 : 0 ≤ c1) (h2 : c2 ≤ 1) (h12 : c1 ≤ c2) (hnav : 0 ≤ nav)
    (hppf : ∀ a b : ℚ, a ≤ b → ppf a ≤ ppf b)
    (hstd : 0 ≤ sampleStd sqrt (calculate_portfolio_returns weights cols window_days)) :
    (historicalVarLevel (calculate_portfolio_returns weights cols window_days) c2 * nav ≤
      historicalVarLevel (calculate_portfolio_returns weights cols window_days) c1 * nav) ∧
    (parametricVarLevel sqrt ppf (calculate_portfolio_returns weights cols window_days) c2
        * nav ≤
      parametricVarLevel sqrt ppf (calculate_portfolio_returns weights cols window_days) c1
        * nav) ∧
    (historicalVarLevel (calculate_portfolio_returns weights cols window_days) c1 * nav ≤ 0 →
      |historicalVarLevel (calculate_portfolio_returns weights cols window_days) c1 * nav| ≤
      |historicalVarLevel (calculate_portfolio_returns weights cols window_days) c2 * nav|) := by
  have hhist : historicalVarLevel (calculate_portfolio_returns weights cols window_days) c2 ≤
      historicalVarLevel (calculate_portfolio_returns weights cols window_days) c1 := by
    rw [historicalVarLevel, historicalVarLevel]
    refine percentile_mono _ ?_ ?_ ?_
    · linarith
    · linarith
    · linarith
  refine ⟨mul_le_mul_of_nonneg_right hhist hnav, ?_, ?_⟩
  · have hz : ppf (1 - c2) ≤ ppf (1 - c1) := hppf _ _ (by linarith)
    rw [parametricVarLevel, parametricVarLevel]
    have := mul_le_mul_of_nonneg_right hz hstd
    exact mul_le_mul_of_nonneg_right (by linarith) hnav
  · intro hneg
    have hc2 : historicalVarLevel (calculate_portfolio_returns weights cols window_days) c2
        * nav ≤ 0 := le_trans (mul_le_mul_of_nonneg_right hhist hnav) hneg
    rw [abs_of_nonpos hneg, abs_of_nonpos hc2]
    have := mul_le_mul_of_nonneg_right hhist hnav
    linarith

/-- Witness for C8 (amended theorem) at a concrete input. -/
theorem var_monotone_in_confidence_witness :
    (0 : ℚ) ≤ 1/2 ∧ (3/4 : ℚ) ≤ 1 ∧ (1/2 : ℚ) ≤ 3/4 ∧ (0 : ℚ) ≤ 1 ∧
    (historicalVarLevel (calculate_portfolio_returns [("A", 1)] [("A", [1, 2, 6, 24, 120])] 4)
        (3/4) * 1 ≤
      historicalVarLevel (calculate_portfolio_returns [("A", 1)] [("A", [1, 2, 6, 24, 120])] 4)
        (1/2) * 1) := by
  refine ⟨by norm_num, by norm_num, by norm_num, by norm_num, ?_⟩
  have h := var_monotone_in_confidence (fun _ => 0) (fun _ => 0) [("A", 1)]
    [("A", [1, 2, 6, 24, 120])] 4 1 (1/2) (3/4)
    (by norm_num) (by norm_num) (by norm_num) (by norm_num)
    (fun a b _ => le_refl 0)
    (by simp [sampleStd])
  exact h.1

/-! ### Claim C5: Kupiec proportion-of-failures test -/

/-- C5: for `x` breaches out of `n` test days, the Kupiec statistic
equals the spec's likelihood-ratio formula whenever `0 < x < n`, is NaN
(`none`) exactly when `x = 0` or `x = n` — in which case both the
reject and the model-valid verdicts are the `None` sentinel — and
otherwise validity at the 95% level is rejected exactly when the
statistic exceeds the χ²(1) critical value 3.84. -/
theorem kupiec_test_spec (log : ℚ → ℚ) (x n : ℕ) (p : ℚ) (hxn : x ≤ n) :
    ((0 < x ∧ x < n) → lr_pof log x n p = some (specKupiecLR log x n p)) ∧
    (lr_pof log x n p = none ↔ (x = 0 ∨ x = n)) ∧
    (lr_pof log x n p = none →
      reject_at_95 log x n p = none ∧ model_valid_95 log x n p = none) ∧
    (∀ lr, lr_pof log x n p = some lr →
      (reject_at_95 log x n p = some true ↔ critical_value_95 < lr) ∧
      (model_valid_95 log x n p = some true ↔ lr ≤ critical_value_95)) := by
  refine ⟨?_, ?_, ?_, ?_⟩
  · intro h
    rw [lr_pof, if_pos h, specKupiecLR]
  · rw [lr_pof]
    split_ifs with h
    · simp only [reduceCtorEq, false_iff]
      omega
    · simp only [true_iff]
      omega
  · intro h
    rw [reject_at_95, model_valid_95, h]
    exact ⟨rfl, rfl⟩
  · intro lr h
    rw [reject_at_95, model_valid_95, h]
    simp

/-- Witness for C5 at `x = 1`, `n = 2`, `p = 1/20`, abstract log
instantiated with the identity. -/
theorem kupiec_test_spec_witness :
    (1 : ℕ) ≤ 2 ∧
    lr_pof (fun q => q) 1 2 (1/20) = some (specKupiecLR (fun q => q) 1 2 (1/20)) ∧
    (lr_pof (fun q => q) 1 2 (1/20) = none ↔ ((1 : ℕ) = 0 ∨ (1 : ℕ) = 2)) := by
  have h := kupiec_test_spec (fun q => q) 1 2 (1/20) (by norm_num)
  exact ⟨by norm_num, h.1 ⟨by norm_num, by norm_num⟩, h.2.1⟩

/-! ### Claim C6: PricingError in value_portfolio versus stress_test -/

theorem except_bind_ok {ε α β : Type} (a : α) (g : α → Except ε β) :
    (Except.ok a >>= g) = g a := rfl

theorem except_bind_error {ε α β : Type} (e : ε) (g : α → Except ε β) :
    ((Except.error e : Except ε α) >>= g) = .error e := rfl

theorem value_portfolio_fold_error (cols : List (String × List ℚ))
    (idx : List (String × ℚ)) (hcols : ∀ c ∈ cols, c.2 ≠ []) :
    ∀ (positions : List (String × ℚ)) (acc : ℚ),
      (∃ sp ∈ positions, sp.1 ∉ cols.map Prod.fst ∧ sp.1 ∉ idx.map Prod.fst) →
      ∃ sym, positions.foldlM
        (fun total sp =>
          match cols.lookup sp.1 with
          | some ps =>
              match ps.getLast? with
              | some price => Except.ok (total + sp.2 * price)
              | none => Except.error RiskError.indexError
          | none =>
              match idx.lookup sp.1 with
              | some price => Except.ok (total + sp.2 * price)
              | none => Except.error (RiskError.pricingError sp.1)) acc =
        .error (.pricingError sym)
  | [], _, hm => by simp at hm
  | p :: t, acc, hm => by
      rw [List.foldlM_cons]
      rcases hcl : cols.lookup p.1 with _ | ps
      · dsimp only
        rcases hix : idx.lookup p.1 with _ | price
        · exact ⟨p.1, rfl⟩
        · obtain ⟨sp, hsp, hspc, hspi⟩ := hm
          rcases List.mem_cons.mp hsp with rfl | hsp
          · exact absurd (mem_keys_of_lookup_eq_some hix) hspi
          · obtain ⟨sym, hsym⟩ := value_portfolio_fold_error cols idx hcols t
              (acc + p.2 * price) ⟨sp, hsp, hspc, hspi⟩
            exact ⟨sym, hsym⟩
      · dsimp only
        rcases hgl : ps.getLast? with _ | price
        · exact absurd (List.getLast?_eq_none_iff.mp hgl) (hcols _ (lookup_mem hcl))
        · obtain ⟨sp, hsp, hspc, hspi⟩ := hm
          rcases List.mem_cons.mp hsp with rfl | hsp
          · exact absurd (mem_keys_of_lookup_eq_some hcl) hspc
          · obtain ⟨sym, hsym⟩ := value_portfolio_fold_error cols idx hcols t
              (acc + p.2 * price) ⟨sp, hsp, hspc, hspi⟩
            exact ⟨sym, hsym⟩

theorem calculate_npv_fold_ok (cols : List (String × List ℚ))
    (hcols : ∀ c ∈ cols, c.2 ≠ []) :
    ∀ (positions : List (String × ℚ)) (acc : ℚ),
      ∃ v, positions.foldlM
        (fun npv sp =>
          match cols.lookup sp.1 with
          | some ps =>
              match ps.getLast? with
              | some price => Except.ok (npv + sp.2 * price)
              | none => Except.error RiskError.indexError
          | none => Except.ok npv) acc = .ok v
  | [], acc => ⟨acc, rfl⟩
  | p :: t, acc => by
      rw [List.foldlM_cons]
      rcases hcl : cols.lookup p.1 with _ | ps
      · obtain ⟨v, hv⟩ := calculate_npv_fold_ok cols hcols t acc
        exact ⟨v, hv⟩
      · dsimp only
        rcases hgl : ps.getLast? with _ | price
        · exact absurd (List.getLast?_eq_none_iff.mp hgl) (hcols _ (lookup_mem hcl))
        · obtain ⟨v, hv⟩ := calculate_npv_fold_ok cols hcols t (acc + p.2 * price)
          exact ⟨v, hv⟩

theorem calculate_npv_ok (positions : List (String × ℚ)) (cols : List (String × List ℚ))
    (hcols : ∀ c ∈ cols, c.2 ≠ []) : ∃ v, calculate_npv positions cols = .ok v :=
  calculate_npv_fold_ok cols hcols positions 0

theorem apply_shocks_preserves_nonempty (cols : List (String × List ℚ))
    (shocks : List (String × ℚ)) (hcols : ∀ c ∈ cols, c.2 ≠ []) :
    ∀ c ∈ apply_shocks cols shocks, c.2 ≠ [] := by
  rw [apply_shocks]
  induction shocks generalizing cols with
  | nil => exact hcols
  | cons s t ih =>
      rw [List.foldl_cons]
      apply ih
      intro c hc
      split_ifs at hc with h1 h2
      · rw [List.mem_map] at hc
        obtain ⟨d, hd, rfl⟩ := hc
        split_ifs with h3
        · simpa using hcols d hd
        · exact hcols d hd
      · rw [List.mem_map] at hc
        obtain ⟨d, hd, rfl⟩ := hc
        simpa using hcols d hd
      · exact hcols c hc

/-- C6 amended: a symbol held in the portfolio but absent from the
market data makes `value_portfolio` fail with `PricingError`, but
`stress_test` computes NPVs through a helper that silently *skips* such
symbols, so (whenever every present column is non-empty, which is the
only other failure source) the whole batch succeeds with one ordinary
row per scenario — no row carries a null P&L or an error string.  The
per-row error downgrade applies only to exceptions actually raised
during the stressed revaluation, which a merely missing symbol never
triggers. -/
theorem pricing_error_fatal_but_stress_rows_ordinary (positions : List (String × ℚ))
    (cols : List (String × List ℚ)) (idx : List (String × ℚ))
    (scenarios : List StressScenario)
    (hmiss : ∃ sp ∈ positions, sp.1 ∉ cols.map Prod.fst ∧ sp.1 ∉ idx.map Prod.fst)
    (hcols : ∀ c ∈ cols, c.2 ≠ []) :
    (∃ sym, value_portfolio positions cols idx = .error (.pricingError sym)) ∧
    (∃ rows, stress_test positions cols scenarios = .ok rows ∧
      rows.length = scenarios.length ∧
      ∀ r ∈ rows, r.err = none ∧ r.pnl ≠ none) := by
  constructor
  · exact value_portfolio_fold_error cols idx hcols positions 0 hmiss
  · obtain ⟨base, hbase⟩ := calculate_npv_ok positions cols hcols
    have hst : stress_test positions cols scenarios = .ok (scenarios.map (fun scenario =>
        match calculate_npv positions (apply_shocks cols scenario.shocks) with
        | .ok stressed_npv =>
            { scenario := scenario.name, base_npv := base,
              stressed_npv := some stressed_npv, pnl := some (stressed_npv - base),
              pct_change := some (if base ≠ 0 then (stressed_npv - base) / base else 0),
              err := none }
        | .error e =>
            { scenario := scenario.name, base_npv := base,
              stressed_npv := none, pnl := none, pct_change := none,
              err := some e })) := by
      rw [stress_test, hbase, except_bind_ok]
      rfl
    refine ⟨_, hst, ?_, ?_⟩
    · simp
    · intro r hr
      rw [List.mem_map] at hr
      obtain ⟨sc, _, rfl⟩ := hr
      obtain ⟨v, hv⟩ := calculate_npv_ok positions (apply_shocks cols sc.shocks)
        (apply_shocks_preserves_nonempty cols sc.shocks hcols)
      rw [hv]
      exact ⟨rfl, by simp⟩

/-- Witness for C6 (amended theorem) at a concrete instance: the
portfolio holds "A", the market data only has a column "B". -/
theorem pricing_error_fatal_but_stress_rows_ordinary_witness :
    (∃ sp ∈ [("A", (1 : ℚ))], sp.1 ∉ ([("B", [100])] : List (String × List ℚ)).map Prod.fst ∧
      sp.1 ∉ ([] : List (String × ℚ)).map Prod.fst) ∧
    (∃ sym, value_portfolio [("A", 1)] [("B", [100])] [] = .error (.pricingError sym)) ∧
    (∃ rows, stress_test [("A", 1)] [("B", [100])]
        [{ name := "S", shocks := [("B", -(1/10))] }] = .ok rows ∧
      rows.length = ([{ name := "S", shocks := [("B", -(1/10))] }] : List StressScenario).length ∧
      ∀ r ∈ rows, r.err = none ∧ r.pnl ≠ none) := by
  have hm : ∃ sp ∈ [("A", (1 : ℚ))],
      sp.1 ∉ ([("B", [100])] : List (String × List ℚ)).map Prod.fst ∧
      sp.1 ∉ ([] : List (String × ℚ)).map Prod.fst := ⟨("A", 1), by simp, by simp, by simp⟩
  have h := pricing_error_fatal_but_stress_rows_ordinary [("A", 1)] [("B", [100])] []
    [{ name := "S", shocks := [("B", -(1/10))] }] hm (by simp)
  exact ⟨hm, h.1, h.2⟩

/-- C6 counterexample: with the portfolio holding only "A" and market
data carrying only a "B" column, `value_portfolio` fails with
`PricingError("A")`, yet `stress_test` does not record any per-row
error for the same condition: it returns a single ordinary row with
P&L 0 and no error field, because its NPV helper silently skips the
missing symbol. -/
theorem stress_test_missing_symbol_counterexample :
    value_portfolio [("A", 1)] [("B", [100])] [] = .error (.pricingError "A") ∧
    stress_test [("A", 1)] [("B", [100])] [{ name := "S", shocks := [("B", -(1/10))] }] =
      .ok [{ scenario := "S", base_npv := 0, stressed_npv := some 0, pnl := some 0,
             pct_change := some 0, err := none }] := by
  constructor
  · rfl
  · norm_num [stress_test, calculate_npv, apply_shocks, List.lookup, except_bind_ok,
      show ("A" == "B") = false from rfl, show ("B" == "B") = true from rfl]

/-! ### Claim C7: linearity consistency check tolerance -/

/-- C7 counterexample: a risk port whose 10%-shock loss is 1 and whose
20%-shock loss is 2.15 gives ratio 2.15, which *is* within a 10%
relative tolerance of 2.0 (|2.15 − 2| = 0.15 ≤ 0.2), yet the service
records a warning and reports the check as failed, because the code's
acceptance test is `|ratio − 2| ≤ 0.05 · 2 = 0.1`. -/
theorem linearity_tolerance_counterexample :
    (validate_linearity (fun _ => .ok [
        { scenario := "Linearity_10pct", base_npv := 0, stressed_npv := some (-1),
          pnl := some (-1), pct_change := some 0, err := none },
        { scenario := "Linearity_20pct", base_npv := 0, stressed_npv := some (-(43/20)),
          pnl := some (-(43/20)), pct_change := some 0, err := none }])).1 = false ∧
    |(|(-(43/20) : ℚ)| / |(-1 : ℚ)| - 2)| ≤ (1/10) * 2 := by
  have h1 : |(-(43/20) : ℚ)| = 43/20 := by
    rw [abs_of_nonpos (by norm_num : (-(43/20) : ℚ) ≤ 0)]
    norm_num
  have h2 : |(-1 : ℚ)| = 1 := by
    rw [abs_of_nonpos (by norm_num : (-1 : ℚ) ≤ 0)]
    norm_num
  constructor
  · have hd : (decide ("Linearity_10pct" = "Linearity_20pct")) = false := rfl
    norm_num [validate_linearity, List.find?, hd, h1, h2]
    rw [if_neg (show ¬ (|(3/20 : ℚ)| ≤ 1/10) from by
      rw [abs_of_nonneg (by norm_num : (0 : ℚ) ≤ 3/20)]
      norm_num)]
  · rw [h1, h2]
    have h3 : (43 : ℚ)/20 / 1 - 2 = 3/20 := by norm_num
    rw [h3, abs_of_nonneg (by norm_num : (0 : ℚ) ≤ 3/20)]
    norm_num

/-- C7 amended: the linearity check builds the synthetic −10% and −20%
`"SPX"` shock scenarios and, when both rows are found, both carry a P&L
and the 10% loss is non-negligible, it accepts exactly when the ratio
of the 20%-shock loss to the 10%-shock loss is within `0.05 * 2.0`
(a 5% relative tolerance of 2.0, i.e. `|ratio − 2| ≤ 0.1`) — not the
claimed 10%; a ratio outside this band appends a warning and reports
failure instead of raising. -/
theorem linearity_check_five_percent_tolerance
    (stressFn : List StressScenario → Except RiskError (List StressRow))
    (rows : List StressRow) (r10 r20 : StressRow) (p10 p20 : ℚ)
    (hok : stressFn [scenario_10, scenario_20] = .ok rows)
    (h10 : rows.find? (fun r => r.scenario = "Linearity_10pct") = some r10)
    (h20 : rows.find? (fun r => r.scenario = "Linearity_20pct") = some r20)
    (hp10 : r10.pnl = some p10) (hp20 : r20.pnl = some p20)
    (hbig : ¬ |p10| < 1/1000000) :
    scenario_10.shocks = [("SPX", -(1/10))] ∧
    scenario_20.shocks = [("SPX", -(1/5))] ∧
    ((validate_linearity stressFn).1 = true ↔ |(|p20| / |p10| - 2)| ≤ (5/100) * 2) ∧
    ((validate_linearity stressFn).2 ≠ [] ↔ ¬ (|(|p20| / |p10| - 2)| ≤ (5/100) * 2)) := by
  refine ⟨rfl, rfl, ?_⟩
  rw [validate_linearity, hok]
  dsimp only
  rw [h10, h20]
  dsimp only
  rw [hp10, hp20]
  dsimp only
  rw [if_neg hbig]
  split_ifs with htol
  · simp [htol]
  · simp [htol]

/-- Witness for C7 (amended theorem): a stub port with losses exactly 1
and 2 gives ratio 2, the check passes and appends no warning. -/
theorem linearity_check_five_percent_tolerance_witness :
    ((fun _ => Except.ok  [
        { scenario := "Linearity_10pct", base_npv := 0, stressed_npv := some (-1),
          pnl := some (-1), pct_change := some 0, err := none },
        { scenario := "Linearity_20pct", base_npv := 0, stressed_npv := some (-2),
          pnl := some (-2), pct_change := some 0, err := none }] :
      List StressScenario → Except RiskError (List StressRow)) [scenario_10, scenario_20] =
      .ok [
        { scenario := "Linearity_10pct", base_npv := 0, stressed_npv := some (-1),
          pnl := some (-1), pct_change := some 0, err := none },
        { scenario := "Linearity_20pct", base_npv := 0, stressed_npv := some (-2),
          pnl := some (-2), pct_change := some 0, err := none }]) ∧
    ((validate_linearity (fun _ => Except.ok [
        { scenario := "Linearity_10pct", base_npv := 0, stressed_npv := some (-1),
          pnl := some (-1), pct_change := some 0, err := none },
        { scenario := "Linearity_20pct", base_npv := 0, stressed_npv := some (-2),
          pnl := some (-2), pct_change := some 0, err := none }])).1 = true ↔
      |(|(-2 : ℚ)| / |(-1 : ℚ)| - 2)| ≤ (5/100) * 2) := by
  refine ⟨rfl, ?_⟩
  have h := linearity_check_five_percent_tolerance
    (fun _ => Except.ok [
        { scenario := "Linearity_10pct", base_npv := 0, stressed_npv := some (-1),
          pnl := some (-1), pct_change := some 0, err := none },
        { scenario := "Linearity_20pct", base_npv := 0, stressed_npv := some (-2),
          pnl := some (-2), pct_change := some 0, err := none }])
    _ _ _ (-1) (-2) rfl rfl rfl rfl rfl (by norm_num)
  exact h.2.2.1

/-! ### Claim C2: multi-method VaR merging in RiskCalculationService -/

/-- C2 (code bug): requesting more than one VaR method makes
`RiskCalculationService.calculate` store VaR under method-prefixed
labels (`"historical_50%"`, `"parametric_50%"`) while CVaR keeps plain
labels (`"50%"`), so the RiskMetrics key-set invariant fires and the
assembly raises `ValueError` instead of returning an instance — the
multi-method path can never succeed.  The same request with a single
method assembles fine. -/
theorem multi_method_assembly_raises_value_error :
    serviceCalculate (fun q => q) (fun q => q)
      { positions := [("A", 1)], weights := [("A", 1)], nav := 1 }
      [("A", [1, 2, 6, 24, 120])] ["historical", "parametric"] [1/2] 4 =
      .error .keySetMismatch ∧
    serviceCalculate (fun q => q) (fun q => q)
      { positions := [("A", 1)], weights := [("A", 1)], nav := 1 }
      [("A", [1, 2, 6, 24, 120])] ["historical"] [1/2] 4 =
      .ok { var := [("50%", 5/2)], cvar := [("50%", 3/2)] } := by
  have hh : calculate_var (fun q : ℚ => q) (fun q : ℚ => q) [("A", 1)] 1
      [("A", [1, 2, 6, 24, 120])] "historical" [1/2] 4 = .ok [("50%", 5/2)] := by
    norm_num [calculate_var, calculate_portfolio_returns, pctChange, List.lookup,
      List.range_succ, List.filterMap_cons, List.isEmpty, historicalVarLevel,
      percentile, interpPercentile, List.insertionSort, List.orderedInsert,
      dictInsert, label_half]
  have hp : calculate_var (fun q : ℚ => q) (fun q : ℚ => q) [("A", 1)] 1
      [("A", [1, 2, 6, 24, 120])] "parametric" [1/2] 4 = .ok [("50%", 10/3)] := by
    norm_num [calculate_var, calculate_portfolio_returns, pctChange, List.lookup,
      List.range_succ, List.filterMap_cons, List.isEmpty, parametricVarLevel,
      sampleStd, seriesMean, dictInsert, label_half,
      show ¬ ("parametric" = "historical") from by decide]
  have hc : calculate_cvar [("A", 1)] 1 [("A", [1, 2, 6, 24, 120])]
      "historical" [1/2] 4 = .ok [("50%", 3/2)] := by
    norm_num [calculate_cvar, calculate_portfolio_returns, pctChange, List.lookup,
      List.range_succ, List.filterMap_cons, List.isEmpty, cvarLevel, List.filter,
      percentile, interpPercentile, List.insertionSort, List.orderedInsert,
      seriesMean, dictInsert, label_half]
  constructor
  · rw [serviceCalculate]
    simp only [List.isEmpty_cons, List.foldlM_cons, List.foldlM_nil, hh, hp, hc,
      except_bind_ok, Bool.false_eq_true, if_false]
    norm_num [dictInsert, mkRiskMetrics, except_bind_ok, hc,
      show ("historical" ++ "_" ++ "50%") = "historical_50%" from rfl,
      show ("parametric" ++ "_" ++ "50%") = "parametric_50%" from rfl,
      show ¬ ("historical_50%" = "parametric_50%") from by decide,
      show ¬ ("50%" = "historical_50%") from by decide,
      show ¬ ("50%" = "parametric_50%") from by decide]
  · rw [serviceCalculate]
    simp only [List.isEmpty_cons, List.foldlM_cons, List.foldlM_nil, hh, hc,
      except_bind_ok, Bool.false_eq_true, if_false]
    norm_num [mkRiskMetrics, except_bind_ok, riskMetricsTolerance, List.find?,
      List.lookup, hc, show ("50%" == "50%") = true from rfl,
      abs_of_nonneg (show (0 : ℚ) ≤ 5/2 by norm_num),
      abs_of_nonneg (show (0 : ℚ) ≤ 3/2 by norm_num),
      show ((5 : ℚ)/2 ⊔ 3/2) = 5/2 from by rw [max_eq_left] <;> norm_num,
      show ((5 : ℚ)/2 ⊔ 1) = 5/2 from by rw [max_eq_left] <;> norm_num]

end MatrixRisk
